import Mathlib

/-!
Verification of the core ray-tracing engine of `rust-raytrace`.

The Rust source is shallowly embedded over the rationals `ℚ`.  The f64
primitives that are not exactly representable over `ℚ` (square root,
real-exponent power, sine, cosine, the constant `1/π`) are threaded
through every definition as an abstract record `FOps` of rational
functions; theorems that need genuine square-root facts hypothesise them
pointwise (`SqrtOk`), and witnesses discharge the hypotheses with
concrete rational instances.  IEEE NaN matters only in the nearest-hit
selection of `Scene::intersect`; that selection is additionally modelled
over a scalar type `F64` with an explicit NaN value, exactly mirroring
the `FloatNotNan` / `min_by_key` code of `scene.rs`.
-/

/-- Abstract f64 primitives used by the Rust code: `f64::sqrt`,
`f64::powf`, `f64::cos`, `f64::sin` and `std::f64::consts::FRAC_1_PI`.
They are modelled as unconstrained rational functions; theorems assume
exact-square-root behaviour pointwise where they need it. -/
structure FOps where
  sqrt : ℚ → ℚ
  powf : ℚ → ℚ → ℚ
  cos : ℚ → ℚ
  sin : ℚ → ℚ
  frac1Pi : ℚ

/-- The abstract square root behaves as a true square root at the point
`q`: it is nonnegative and squares back to `q`. -/
def SqrtOk (ops : FOps) (q : ℚ) : Prop :=
  0 ≤ ops.sqrt q ∧ ops.sqrt q * ops.sqrt q = q

/-- 3D vector over ℚ (nalgebra `Vec3<f64>`). -/
structure Vec3 where
  x : ℚ
  y : ℚ
  z : ℚ
deriving DecidableEq

/-- 3D point over ℚ (nalgebra `Pnt3<f64>`); nalgebra's point/vector
distinction is type-level only, all arithmetic coincides. -/
abbrev Pnt3 := Vec3

/-- 2D point over ℚ (nalgebra `Pnt2<f64>`). -/
structure Pnt2 where
  x : ℚ
  y : ℚ
deriving DecidableEq

instance : Add Vec3 := ⟨fun a b => ⟨a.x + b.x, a.y + b.y, a.z + b.z⟩⟩
instance : Sub Vec3 := ⟨fun a b => ⟨a.x - b.x, a.y - b.y, a.z - b.z⟩⟩
instance : Neg Vec3 := ⟨fun a => ⟨-a.x, -a.y, -a.z⟩⟩

/-- Scalar multiplication `v * t` (nalgebra `Vec3<f64> * f64`). -/
def Vec3.scale (v : Vec3) (t : ℚ) : Vec3 := ⟨v.x * t, v.y * t, v.z * t⟩

instance : HMul Vec3 ℚ Vec3 := ⟨Vec3.scale⟩

/-- Dot product (nalgebra `dot`). -/
def Vec3.dot (a b : Vec3) : ℚ := a.x * b.x + a.y * b.y + a.z * b.z

/-- Squared norm (nalgebra `sqnorm`). -/
def Vec3.sqnorm (a : Vec3) : ℚ := a.dot a

/-- Norm: `sqrt (sqnorm v)` through the abstract square root. -/
def Vec3.norm (ops : FOps) (a : Vec3) : ℚ := ops.sqrt a.sqnorm

/-- nalgebra `normalize`: componentwise division by the norm. -/
def Vec3.normalize (ops : FOps) (a : Vec3) : Vec3 :=
  let n := a.norm ops
  ⟨a.x / n, a.y / n, a.z / n⟩

/-- Squared distance between two points (nalgebra `FloatPnt::sqdist`). -/
def Pnt3.sqdist (a b : Pnt3) : ℚ := Vec3.sqnorm (a - b)

/-- Cross product (nalgebra `cross`). -/
def Vec3.cross (a b : Vec3) : Vec3 :=
  ⟨a.y * b.z - a.z * b.y, a.z * b.x - a.x * b.z, a.x * b.y - a.y * b.x⟩

/-- 3×3 matrix over ℚ (nalgebra `Mat3<f64>`), entries row-major as in
`Mat3::new(m11, m12, m13, m21, m22, m23, m31, m32, m33)`. -/
structure Mat3 where
  m11 : ℚ
  m12 : ℚ
  m13 : ℚ
  m21 : ℚ
  m22 : ℚ
  m23 : ℚ
  m31 : ℚ
  m32 : ℚ
  m33 : ℚ
deriving DecidableEq

/-- Matrix–vector product (nalgebra `Mat3 * Vec3`). -/
def Mat3.mulVec (m : Mat3) (v : Vec3) : Vec3 :=
  ⟨m.m11 * v.x + m.m12 * v.y + m.m13 * v.z,
   m.m21 * v.x + m.m22 * v.y + m.m23 * v.z,
   m.m31 * v.x + m.m32 * v.y + m.m33 * v.z⟩

instance : HMul Mat3 Vec3 Vec3 := ⟨Mat3.mulVec⟩

/-- The identity matrix, for concrete instances in witnesses. -/
def Mat3.id : Mat3 := ⟨1, 0, 0, 0, 1, 0, 0, 0, 1⟩

/-- RGB color over ℚ (`color.rs`, struct `Color`); components are not
clamped to [0,1]. -/
structure Color where
  r : ℚ
  g : ℚ
  b : ℚ
deriving DecidableEq

/-- The constant `BLACK` of `color.rs`. -/
def Color.BLACK : Color := ⟨0, 0, 0⟩

instance : Add Color := ⟨fun a b => ⟨a.r + b.r, a.g + b.g, a.b + b.b⟩⟩
instance : Sub Color := ⟨fun a b => ⟨a.r - b.r, a.g - b.g, a.b - b.b⟩⟩
instance : Mul Color := ⟨fun a b => ⟨a.r * b.r, a.g * b.g, a.b * b.b⟩⟩

/-- `Color * f64` of `color.rs`. -/
def Color.scale (c : Color) (t : ℚ) : Color := ⟨c.r * t, c.g * t, c.b * t⟩

instance : HMul Color ℚ Color := ⟨Color.scale⟩

/-- `Color / f64` of `color.rs`. -/
def Color.divScalar (c : Color) (t : ℚ) : Color := ⟨c.r / t, c.g / t, c.b / t⟩

instance : HDiv Color ℚ Color := ⟨Color.divScalar⟩

/-- `Color::significance` of `color.rs`: the sum `r + g + b`. -/
def Color.significance (c : Color) : ℚ := c.r + c.g + c.b

/-- A ray (`shapes.rs`, struct `Ray`). -/
structure Ray where
  origin : Pnt3
  direction : Vec3
deriving DecidableEq

/-- `Ray::cast`: `origin + direction * t`. -/
def Ray.cast (ray : Ray) (t : ℚ) : Pnt3 := ray.origin + ray.direction * t

/-- Intersection result over ℚ (`shapes.rs`, struct
`IntersectionResult`) for the NaN-free pipeline. -/
structure IntersectionResult where
  t : ℚ
  normal : Vec3
deriving DecidableEq

/-- `Sphere` of `shapes.rs`. -/
structure Sphere where
  center : Pnt3
  radius : ℚ
deriving DecidableEq

/-- `Sphere::intersect` of `shapes.rs`: solve the quadratic, take the
smaller root if strictly positive, else the larger if strictly
positive, else no hit. -/
def Sphere.intersect (ops : FOps) (s : Sphere) (ray : Ray) :
    Option IntersectionResult :=
  let ominusc := ray.origin - s.center
  let a := ray.direction.sqnorm
  let b := 2 * ray.direction.dot ominusc
  let c := ominusc.sqnorm - s.radius * s.radius
  let discriminant := b * b - 4 * a * c
  if 0 < discriminant then
    let dsqrt := ops.sqrt discriminant
    let t := (-b - dsqrt) / (2 * a)
    if 0 < t then
      some ⟨t, Vec3.normalize ops (ray.cast t - s.center)⟩
    else
      let t2 := (-b + dsqrt) / (2 * a)
      if 0 < t2 then
        some ⟨t2, Vec3.normalize ops (ray.cast t2 - s.center)⟩
      else none
  else none

/-- The discriminant of `Sphere::intersect`, as computed in the source. -/
def Sphere.disc (s : Sphere) (ray : Ray) : ℚ :=
  let ominusc := ray.origin - s.center
  let a := ray.direction.sqnorm
  let b := 2 * ray.direction.dot ominusc
  let c := ominusc.sqnorm - s.radius * s.radius
  b * b - 4 * a * c

/-- The linear coefficient `b` of `Sphere::intersect`. -/
def Sphere.qb (s : Sphere) (ray : Ray) : ℚ :=
  2 * ray.direction.dot (ray.origin - s.center)

/-- The constant coefficient `c` of `Sphere::intersect`; the origin is
strictly inside the sphere exactly when it is negative. -/
def Sphere.qc (s : Sphere) (ray : Ray) : ℚ :=
  (ray.origin - s.center).sqnorm - s.radius * s.radius

/-! ## The NaN-aware nearest-hit selection of `scene.rs`

`IntersectionResult.t` is an `f64` in the source and may be NaN (e.g. a
`Plane::intersect` of a ray lying inside the plane computes `0.0/0.0`).
`Scene::intersect` selects the nearest hit with
`min_by_key(|o| FloatNotNan::new(o.result.t))`.  This layer models that
selection over a scalar type with an explicit NaN.  Objects carry their
`Box<Shape>` trait object as an abstract intersection function, exactly
as open as the Rust trait. -/

/-- An f64 scalar that may be NaN, for the `t` channel of intersection
results fed into `Scene::intersect`. -/
inductive F64 where
  | nan : F64
  | val : ℚ → F64
deriving DecidableEq

/-- Intersection result whose `t` may be NaN. -/
structure IntersectionResultF where
  t : F64
  normal : Vec3
deriving DecidableEq

/-- An object as seen by `Scene::intersect`: a `Box<Shape>` trait
object, i.e. an arbitrary intersection function. -/
structure ObjectF where
  intersect : Ray → Option IntersectionResultF

/-- `SceneIntersectionResult` of `scene.rs`, in the NaN-aware layer. -/
structure SceneIntersectionResultF where
  object : ObjectF
  result : IntersectionResultF

/-- `FloatNotNan::new` of `scene.rs`: `None` iff the value is NaN. -/
def FloatNotNan.new : F64 → Option ℚ
  | F64.nan => none
  | F64.val q => some q

/-- The `Ord` instance used by `min_by_key` on keys of type
`Option<FloatNotNan>`: in Rust, `None` compares less than `Some`, and
`Some` values compare by the wrapped (non-NaN, hence totally ordered)
float. -/
def optKeyLt : Option ℚ → Option ℚ → Bool
  | none, none => false
  | none, some _ => true
  | some _, none => false
  | some a, some b => decide (a < b)

/-- Rust's `Iterator::min_by_key`: the first element with minimal key
(later elements replace the current minimum only when strictly
smaller). -/
def min_by_key {α : Type} (key : α → Option ℚ) : List α → Option α
  | [] => none
  | x :: xs =>
      some (xs.foldl (fun m y => if optKeyLt (key y) (key m) then y else m) x)

/-- `Scene::intersect` of `scene.rs` restricted to the fields it reads:
filter-map every object through its `intersect`, then select the
minimum by the `FloatNotNan` key. -/
def sceneIntersectF (objects : List ObjectF) (ray : Ray) :
    Option SceneIntersectionResultF :=
  min_by_key (fun o => FloatNotNan.new o.result.t)
    (objects.filterMap
      (fun o => (o.intersect ray).map (fun r => ⟨o, r⟩)))

/-! ## Lights (`scene.rs`) -/

/-- `PointLight` of `scene.rs`. -/
structure PointLight where
  location : Pnt3
deriving DecidableEq

/-- `DirectionalLight` of `scene.rs`. -/
structure DirectionalLight where
  direction : Vec3
deriving DecidableEq

/-- The random source: a stream of rationals with a cursor.  Rust's
distribution samplers are modelled as drawing the next raw stream
value (the stream is assumed to carry values already in the sampled
range, e.g. `[-1,1)` or `[0,2π)`). -/
structure RngT where
  vals : ℕ → ℚ
  pos : ℕ

/-- Draw the next value from the random source. -/
def RngT.next (g : RngT) : ℚ × RngT := (g.vals g.pos, ⟨g.vals, g.pos + 1⟩)

/-- `PointLight::light_dir_and_sq_range_for`: the normalized vector
from the point to the light, together with the squared distance.  The
random source is accepted but unused, as in the Rust code. -/
def PointLight.light_dir_and_sq_range_for (ops : FOps) (l : PointLight)
    (pt : Pnt3) (_rng : RngT) : Vec3 × Option ℚ :=
  (Vec3.normalize ops
      ⟨l.location.x - pt.x, l.location.y - pt.y, l.location.z - pt.z⟩,
   some (l.location.sqdist pt))

/-- `DirectionalLight::light_dir_and_sq_range_for`: the negation of the
stored direction (not normalized in the source), with no range. -/
def DirectionalLight.light_dir_and_sq_range_for (l : DirectionalLight)
    (_pt : Pnt3) (_rng : RngT) : Vec3 × Option ℚ :=
  (-l.direction, none)

/-- The closed set of `LightModel` implementations of the repository. -/
inductive LightModel where
  | point : PointLight → LightModel
  | directional : DirectionalLight → LightModel

/-- Dynamic dispatch of `light_dir_and_sq_range_for` over the two
`LightModel` implementations. -/
def LightModel.light_dir_and_sq_range_for (ops : FOps) :
    LightModel → Pnt3 → RngT → Vec3 × Option ℚ
  | LightModel.point l, pt, rng => l.light_dir_and_sq_range_for ops pt rng
  | LightModel.directional l, pt, rng => l.light_dir_and_sq_range_for pt rng

/-- `Light` of `scene.rs`. -/
structure Light where
  model : LightModel
  color : Color

/-! ## Materials, scene, trace driver (`scene.rs`, `raytrace.rs`) -/

/-- `MIN_SIGNIFICANCE` of `raytrace.rs`: `1.0 / 256.0 / 2.0`. -/
def MIN_SIGNIFICANCE : ℚ := 1 / 256 / 2

/-- `MAX_DEPTH` of `raytrace.rs` (the source omits the type annotation;
the value is 1000). -/
def MAX_DEPTH : ℕ := 1000

/-- `clamp_zero` of `raytrace.rs`. -/
def clamp_zero (x : ℚ) : ℚ := if x < 0 then 0 else x

/-- `clamp_one` of `raytrace.rs`. -/
def clamp_one (x : ℚ) : ℚ := if 1 < x then 1 else x

/-- The self-intersection offset `0.00001` used throughout
`raytrace.rs`. -/
def eps : ℚ := 1 / 100000

/-- `PhongMaterial` of `scene.rs`. -/
structure PhongMaterial where
  diffuse : Color
  specular : Color
  exponent : ℚ
  ambient : Color
deriving DecidableEq

/-- `FresnelMaterial` of `scene.rs`. -/
structure FresnelMaterial where
  diffuse : Color
  specular : Color
  exponent : ℚ
  ambient : Color
  ior : ℚ
deriving DecidableEq

/-- `TransparentMaterial` of `scene.rs`. -/
structure TransparentMaterial where
  specular : Color
  exponent : ℚ
  ior : ℚ
deriving DecidableEq

/-- `IndirectPhongMaterial` of `scene.rs`. -/
structure IndirectPhongMaterial where
  diffuse : Color
  specular : Color
  exponent : ℚ
  ambient : Color
  samples : ℕ
deriving DecidableEq

/-- The closed set of `Material` implementations of the repository
(`raytrace.rs` implements exactly these four). -/
inductive Material where
  | phong : PhongMaterial → Material
  | fresnel : FresnelMaterial → Material
  | transparent : TransparentMaterial → Material
  | indirect : IndirectPhongMaterial → Material

/-- `Object` of `scene.rs`: the `Box<Shape>` trait object is an
abstract intersection function, the material one of the four concrete
materials. -/
structure Object where
  bounds : Ray → Option IntersectionResult
  material : Material

/-- A texture (`texture.rs`).  Loading and pixel sampling are external
image I/O, out of the specified core (spec §1, §6); only the `sample`
capability is kept, as an abstract function. -/
structure Texture where
  sample : ℚ → ℚ → Color

/-- `SolidColorBackground` of `scene.rs`. -/
structure SolidColorBackground where
  color : Color
deriving DecidableEq

/-- `SkyboxBackground` of `scene.rs`: six face textures. -/
structure SkyboxBackground where
  px : Texture
  nx : Texture
  py : Texture
  ny : Texture
  pz : Texture
  nz : Texture

/-- The closed set of `Background` implementations of the repository. -/
inductive Background where
  | solid : SolidColorBackground → Background
  | skybox : SkyboxBackground → Background

/-- `SimplePerspectiveCamera` of `camera.rs` (the fields; the
constructors are not needed by the claims). -/
structure SimplePerspectiveCamera where
  position : Pnt3
  matrix : Mat3
deriving DecidableEq

/-- `DepthOfFieldCamera` of `camera.rs`.  The private field `im_dist`
is set by `DepthOfFieldCamera::new` (see `DepthOfFieldCamera.new`
below); `ang_range` is the distribution object `[0, 2π)` and is
represented by the random stream itself. -/
structure DepthOfFieldCamera where
  camera : SimplePerspectiveCamera
  focus : ℚ
  aperture : ℚ
  samples : ℕ
  im_dist : ℚ
deriving DecidableEq

/-- `DepthOfFieldCamera::new` of `camera.rs`:
`im_dist = (camera.matrix * Vec3::new(0,0,1)).norm()`. -/
def DepthOfFieldCamera.new (ops : FOps) (camera : SimplePerspectiveCamera)
    (focus aperture : ℚ) (samples : ℕ) : DepthOfFieldCamera :=
  ⟨camera, focus, aperture, samples, Vec3.norm ops (camera.matrix * (⟨0, 0, 1⟩ : Vec3))⟩

/-- The closed set of `Camera` implementations of the repository. -/
inductive Camera where
  | simple : SimplePerspectiveCamera → Camera
  | dof : DepthOfFieldCamera → Camera

/-- `Options` of `scene.rs`. -/
structure Options where
  width : ℕ
  height : ℕ
  antialias : ℕ
deriving DecidableEq

/-- `Scene` of `scene.rs`. -/
structure Scene where
  objects : List Object
  lights : List Light
  camera : Camera
  background : Background
  options : Options

/-- `SceneIntersectionResult` of `scene.rs` (NaN-free pipeline). -/
structure SceneIntersectionResult where
  object : Object
  result : IntersectionResult

/-- `Scene::intersect` of `scene.rs` over the NaN-free pipeline: the
`t` values are exact rationals, so `FloatNotNan::new` always succeeds
and the `min_by_key` key is `some t`.  (The NaN behaviour of the same
function is modelled by `sceneIntersectF` above.) -/
def Scene.intersect (scene : Scene) (ray : Ray) :
    Option SceneIntersectionResult :=
  min_by_key (fun o => some o.result.t)
    (scene.objects.filterMap
      (fun o => (o.bounds ray).map (fun r => ⟨o, r⟩)))

/-- The type of the free function `ray_color`, as seen from a material
body (open recursion: the recursive callee is a parameter). -/
abbrev RayColorFn := Ray → ℚ → ℕ → RngT → Color × RngT

/-- The shadow test shared by every material body of `raytrace.rs`:
cast a shadow ray from `pt + ldir * 0.00001` and report occlusion when
it hits something within the squared range (`None` = unbounded). -/
def shadowBlocked (scene : Scene) (pt : Pnt3) (ldir : Vec3)
    (sqrange : Option ℚ) : Bool :=
  match scene.intersect ⟨pt + ldir * eps, ldir⟩ with
  | some intersection =>
      match sqrange with
      | some r2 => decide (intersection.result.t * intersection.result.t < r2)
      | none => true
  | none => false

/-- `PhongMaterial::color` of `raytrace.rs` (lines 28–65), with the
free function `ray_color` abstracted as `rc`. -/
def PhongMaterial.color (ops : FOps) (m : PhongMaterial) (rc : RayColorFn)
    (scene : Scene) (result : IntersectionResult) (ray : Ray)
    (significance : ℚ) (depth : ℕ) (rng : RngT) : Color × RngT :=
  let res := m.ambient
  if depth > MAX_DEPTH then (res, rng) else
  let pt := ray.cast result.t
  let diffuse := decide (m.diffuse.significance * significance > MIN_SIGNIFICANCE)
  let specular := decide (m.specular.significance * significance > MIN_SIGNIFICANCE)
  let normal := if result.normal.dot ray.direction > 0 then -result.normal
                else result.normal
  let res := scene.lights.foldl (fun res light =>
    if diffuse || specular then
      let ld := light.model.light_dir_and_sq_range_for ops pt rng
      let ldir := ld.1
      if shadowBlocked scene pt ldir ld.2 then res
      else
        let res := if diffuse then
            res + m.diffuse * light.color * clamp_zero (ldir.dot normal)
          else res
        if specular then
          res + m.specular * light.color *
            ops.powf
              (clamp_zero (normal.dot (Vec3.normalize ops (ldir - ray.direction))))
              m.exponent
        else res
    else res) res
  if specular then
    let d := ray.direction
    let rd := d - normal * (2 * d.dot normal)
    let reflect : Ray := ⟨pt + rd * eps, rd⟩
    let rcr := rc reflect (significance * m.specular.significance) (depth + 1) rng
    (res + m.specular * rcr.1, rcr.2)
  else (res, rng)

/-- `FresnelMaterial::color` of `raytrace.rs` (lines 123–167), with
`ray_color` abstracted as `rc`. -/
def FresnelMaterial.color (ops : FOps) (m : FresnelMaterial) (rc : RayColorFn)
    (scene : Scene) (result : IntersectionResult) (ray : Ray)
    (significance : ℚ) (depth : ℕ) (rng : RngT) : Color × RngT :=
  let res := m.ambient
  if depth > MAX_DEPTH then (res, rng) else
  let pt := ray.cast result.t
  let nd := result.normal.dot ray.direction
  let normal := if nd > 0 then -result.normal else result.normal
  let r0 := (m.ior - 1) / (m.ior + 1)
  let r0 := r0 * r0
  let omcos := 1 - |nd|
  let omcos2 := omcos * omcos
  let fresnel := clamp_one (r0 + (1 - r0) * omcos2 * omcos2 * omcos)
  let diffuse := decide (m.diffuse.significance * significance > MIN_SIGNIFICANCE)
  let specular := decide (m.specular.significance * fresnel * significance > MIN_SIGNIFICANCE)
  let res := scene.lights.foldl (fun res light =>
    if diffuse || specular then
      let ld := light.model.light_dir_and_sq_range_for ops pt rng
      let ldir := ld.1
      if shadowBlocked scene pt ldir ld.2 then res
      else
        let res := if diffuse then
            res + m.diffuse * light.color * clamp_zero (ldir.dot normal)
          else res
        if specular then
          res + m.specular * light.color * fresnel *
            ops.powf
              (clamp_zero (normal.dot (Vec3.normalize ops (ldir - ray.direction))))
              m.exponent
        else res
    else res) res
  if specular then
    let d := ray.direction
    let rd := d - normal * (2 * d.dot normal)
    let reflect : Ray := ⟨pt + rd * eps, rd⟩
    let rcr := rc reflect (fresnel * significance * m.specular.significance)
      (depth + 1) rng
    (res + m.specular * rcr.1 * fresnel, rcr.2)
  else (res, rng)

/-- The refraction vector computed by `TransparentMaterial::color`
(`raytrace.rs` lines 174–186): `n = ior` when exiting (`nd > 0`) and
`1/ior` when entering; `None` when `sin² ≥ 1` (total internal
reflection). -/
def TransparentMaterial.refractVec (ops : FOps) (ior : ℚ)
    (resultNormal d : Vec3) : Option Vec3 :=
  let nd := resultNormal.dot d
  let normal := if nd > 0 then -resultNormal else resultNormal
  let n := if nd > 0 then ior else 1 / ior
  let sin2 := n * n * (1 - nd * nd)
  if sin2 < 1 then
    let cos := ops.sqrt (1 - sin2)
    some (d * n - normal * (n * |nd| + cos))
  else none

/-- The Schlick term computed by `TransparentMaterial::color`
(`raytrace.rs` lines 188–192); forced to 1 on total internal
reflection. -/
def TransparentMaterial.fresnelTerm (ops : FOps) (ior : ℚ)
    (resultNormal d : Vec3) : ℚ :=
  let nd := resultNormal.dot d
  let normal := if nd > 0 then -resultNormal else resultNormal
  let refract := TransparentMaterial.refractVec ops ior resultNormal d
  let r0 := (ior - 1) / (ior + 1)
  let r0 := r0 * r0
  let omcos := if nd > 0 then
      match refract with
      | some r => 1 - normal.dot r
      | none => 0
    else 1 - |nd|
  let omcos2 := omcos * omcos
  match refract with
  | some _ => clamp_one (r0 + (1 - r0) * omcos2 * omcos2 * omcos)
  | none => 1

/-- `TransparentMaterial::color` of `raytrace.rs` (lines 169–226), with
`ray_color` abstracted as `rc`.  At line 212 the source calls
`ray_color(scene, &reflect, fresnel * significance *
self.specular.significance(), rng)` with no depth argument at all
(`rng` sits in the depth position), which does not typecheck against
`ray_color`'s five-parameter signature.  Modelled from the spec at that
one argument: the spec requires every recursive bounce to pass
`depth + 1`, which is what every other call site does. -/
def TransparentMaterial.color (ops : FOps) (m : TransparentMaterial)
    (rc : RayColorFn) (scene : Scene) (result : IntersectionResult) (ray : Ray)
    (significance : ℚ) (depth : ℕ) (rng : RngT) : Color × RngT :=
  let res := Color.BLACK
  if depth > MAX_DEPTH then (res, rng) else
  let pt := ray.cast result.t
  let nd := result.normal.dot ray.direction
  let normal := if nd > 0 then -result.normal else result.normal
  let ndv := normal.dot ray.direction
  let refract := TransparentMaterial.refractVec ops m.ior result.normal ray.direction
  let fresnel := TransparentMaterial.fresnelTerm ops m.ior result.normal ray.direction
  let specular := decide (m.specular.significance * fresnel * significance > MIN_SIGNIFICANCE)
  let res := scene.lights.foldl (fun res light =>
    if specular then
      let ld := light.model.light_dir_and_sq_range_for ops pt rng
      let ldir := ld.1
      if shadowBlocked scene pt ldir ld.2 then res
      else
        res + m.specular * light.color * fresnel *
          ops.powf
            (clamp_zero (normal.dot (Vec3.normalize ops (ldir - ray.direction))))
            m.exponent
    else res) res
  let step1 :=
    if specular then
      let rd := ray.direction - normal * (2 * ndv)
      let reflect : Ray := ⟨pt + rd * eps, rd⟩
      let rcr := rc reflect (fresnel * significance * m.specular.significance)
        (depth + 1) rng
      (res + m.specular * rcr.1 * fresnel, rcr.2)
    else (res, rng)
  if fresnel < 1 then
    match refract with
    | none => step1
    | some rv =>
        let omf := clamp_one (1 - fresnel)
        let rn := Vec3.normalize ops rv
        let rcr := rc ⟨pt + rn * eps, rn⟩ (omf * significance) (depth + 1) step1.2
        (step1.1 + rcr.1 * omf, rcr.2)
  else step1

/-- `IndirectPhongMaterial::color` of `raytrace.rs` (lines 67–121),
with `ray_color` abstracted as `rc`.  The hemisphere loop draws `r1`
from the `(-1, 1)` distribution and `r2` from the `(0, 2π)`
distribution; both draws are modelled as taking the next raw stream
value.  Note two quirks kept from the source: `sin_theta` is
`1 - r1*r1` (no square root is taken), and the `let ray = Ray {...}`
inside the loop shadows the incoming `ray`, so the specular indirect
term computes `dir - ray.direction` against the freshly built ray
(which is the zero vector). -/
def IndirectPhongMaterial.color (ops : FOps) (m : IndirectPhongMaterial)
    (rc : RayColorFn) (scene : Scene) (result : IntersectionResult) (ray : Ray)
    (significance : ℚ) (depth : ℕ) (rng : RngT) : Color × RngT :=
  let res := m.ambient
  if depth > MAX_DEPTH then (res, rng) else
  let pt := ray.cast result.t
  let diffuse := decide (m.diffuse.significance * significance > MIN_SIGNIFICANCE)
  let specular := decide (m.specular.significance * significance > MIN_SIGNIFICANCE)
  let normal := if result.normal.dot ray.direction > 0 then -result.normal
                else result.normal
  if diffuse || specular then
    let res := scene.lights.foldl (fun res light =>
      let ld := light.model.light_dir_and_sq_range_for ops pt rng
      let ldir := ld.1
      if shadowBlocked scene pt ldir ld.2 then res
      else
        let res := if diffuse then
            res + m.diffuse * light.color * clamp_zero (ldir.dot normal)
          else res
        if specular then
          res + m.specular * light.color *
            ops.powf
              (clamp_zero (normal.dot (Vec3.normalize ops (ldir - ray.direction))))
              m.exponent
        else res) res
    (List.range m.samples).foldl (fun acc _ =>
      let res := acc.1
      let rng := acc.2
      let s1 := rng.next
      let r1 := s1.1
      let s2 := s1.2.next
      let r2 := s2.1
      let rng := s2.2
      let sinTheta := 1 - r1 * r1
      let phi := r2
      let x := sinTheta * ops.cos phi
      let z := sinTheta * ops.sin phi
      let d0 : Vec3 := ⟨x, r1, z⟩
      let dir := if d0.dot normal ≥ 0 then d0 else -d0
      let ray2 : Ray := ⟨pt + dir * eps, dir⟩
      let rcr := rc ray2 significance (depth + 1) rng
      let color := rcr.1
      let rng := rcr.2
      let fac := (m.samples : ℚ) * (1/2) * ops.frac1Pi
      let res := if diffuse then res + m.diffuse * color * r1 / fac else res
      let res := if specular then
          res + m.specular * color *
            ops.powf
              (clamp_zero (normal.dot (Vec3.normalize ops (dir - ray2.direction))))
              m.exponent / fac
        else res
      (res, rng)) (res, rng)
  else (res, rng)

/-- Dynamic dispatch of `Material::color` over the four concrete
materials. -/
def Material.color (ops : FOps) : Material → RayColorFn → Scene →
    IntersectionResult → Ray → ℚ → ℕ → RngT → Color × RngT
  | Material.phong m => m.color ops
  | Material.fresnel m => m.color ops
  | Material.transparent m => m.color ops
  | Material.indirect m => m.color ops

/-- `SolidColorBackground::color` of `raytrace.rs`: the stored color,
for every ray and random state.  (Named `bgColor` because Lean reserves
`SolidColorBackground.color` for the structure field of the same
name.) -/
def SolidColorBackground.bgColor (bg : SolidColorBackground) (_ray : Ray)
    (_rng : RngT) : Color :=
  bg.color

/-- `SkyboxBackground::color` of `raytrace.rs` (lines 234–254), the
`skybox_axis!` macro expanded for the x, y and z axes in source order;
falls through to `BLACK` when no axis test succeeds. -/
def SkyboxBackground.color (bg : SkyboxBackground) (ray : Ray)
    (_rng : RngT) : Color :=
  let d := ray.direction
  if |d.x| > |d.z| ∧ |d.x| > |d.y| then
    if d.x > 0 then
      bg.px.sample ((-d.z / d.x) * (1/2) + 1/2) ((-d.y / |d.x|) * (1/2) + 1/2)
    else
      bg.nx.sample ((-d.z / d.x) * (1/2) + 1/2) ((-d.y / |d.x|) * (1/2) + 1/2)
  else if |d.y| > |d.x| ∧ |d.y| > |d.z| then
    if d.y > 0 then
      bg.py.sample ((d.x / |d.y|) * (1/2) + 1/2) ((d.z / d.y) * (1/2) + 1/2)
    else
      bg.ny.sample ((d.x / |d.y|) * (1/2) + 1/2) ((d.z / d.y) * (1/2) + 1/2)
  else if |d.z| > |d.x| ∧ |d.z| > |d.y| then
    if d.z > 0 then
      bg.pz.sample ((d.x / d.z) * (1/2) + 1/2) ((-d.y / |d.z|) * (1/2) + 1/2)
    else
      bg.nz.sample ((d.x / d.z) * (1/2) + 1/2) ((-d.y / |d.z|) * (1/2) + 1/2)
  else Color.BLACK

/-- Dynamic dispatch of `Background::color`. -/
def Background.color : Background → Ray → RngT → Color
  | Background.solid bg => bg.bgColor
  | Background.skybox bg => bg.color

/-- `ray_color` of `raytrace.rs` with an explicit structural fuel in
place of Rust's call-stack recursion: intersect the scene, delegate to
the hit object's material (passing itself, one fuel lower, as the
recursive callee) or to the background.  The fuel-0 default is
unreachable from the actual entry point (`raytrace` starts at depth 0
with fuel `MAX_DEPTH + 2`, and each material bounce increments the
depth, which the `> MAX_DEPTH` guard caps). -/
def ray_colorFuel (ops : FOps) : ℕ → Scene → Ray → ℚ → ℕ → RngT → Color × RngT
  | 0, _, _, _, _, rng => (Color.BLACK, rng)
  | fuel + 1, scene, ray, significance, depth, rng =>
    match scene.intersect ray with
    | some result =>
        Material.color ops result.object.material
          (ray_colorFuel ops fuel scene) scene result.result ray
          significance depth rng
    | none => (scene.background.color ray rng, rng)

/-- `ray_color` of `raytrace.rs` (lines 259–265). -/
def ray_color (ops : FOps) (scene : Scene) (ray : Ray) (significance : ℚ)
    (depth : ℕ) (rng : RngT) : Color × RngT :=
  ray_colorFuel ops (MAX_DEPTH + 2 - depth) scene ray significance depth rng

/-- `SimplePerspectiveCamera::project` of `camera.rs` (lines 80–84);
the random source is accepted but unused. -/
def SimplePerspectiveCamera.project (ops : FOps)
    (cam : SimplePerspectiveCamera) (position : Pnt2) (_rng : RngT) : Ray :=
  ⟨cam.position,
   Vec3.normalize ops (cam.matrix * (⟨position.x, position.y, 1⟩ : Vec3))⟩

/-- `DepthOfFieldCamera::project` of `camera.rs` (lines 115–129): the
lens-jittered ray.  `theta` is drawn from the `[0, 2π)` distribution
and `r2` from `Closed01`; both are modelled as the next raw stream
values. -/
def DepthOfFieldCamera.project (ops : FOps) (cam : DepthOfFieldCamera)
    (position : Pnt2) (rng : RngT) : Ray × RngT :=
  let dir := cam.camera.matrix * (⟨position.x, position.y, 1⟩ : Vec3)
  let ip := cam.camera.position + dir
  let fp := cam.camera.position + dir * (cam.focus / cam.im_dist)
  let s1 := rng.next
  let theta := s1.1
  let s2 := s1.2.next
  let r2 := s2.1
  let rng := s2.2
  let r := ops.sqrt r2 * cam.aperture
  let orig := ip + cam.camera.matrix *
    (⟨ops.cos theta * r, ops.sin theta * r, 0⟩ : Vec3)
  (⟨orig, Vec3.normalize ops (fp - orig)⟩, rng)

/-- Dynamic dispatch of `Camera::project`. -/
def Camera.project (ops : FOps) : Camera → Pnt2 → RngT → Ray × RngT
  | Camera.simple cam, position, rng => (cam.project ops position rng, rng)
  | Camera.dof cam, position, rng => cam.project ops position rng

/-- `Camera::samples`: the trait default 1 for the simple camera, the
configured count for the depth-of-field camera. -/
def Camera.samples : Camera → ℕ
  | Camera.simple _ => 1
  | Camera.dof cam => cam.samples

/-- `raytrace` of `raytrace.rs` (lines 268–274): accumulate
`camera.samples()` calls of `camera.project` followed by `ray_color` at
depth 0, threading the random source, and divide by the sample count. -/
def raytrace (ops : FOps) (scene : Scene) (pos : Pnt2) (significance : ℚ)
    (rng : RngT) : Color :=
  let n := scene.camera.samples
  let acc := (List.range n).foldl (fun acc _ =>
    let pr := Camera.project ops scene.camera pos acc.2
    let rcr := ray_color ops scene pr.1 significance 0 pr.2
    (acc.1 + rcr.1, rcr.2)) (Color.BLACK, rng)
  acc.1 / (n : ℚ)

/-- Following the spec's words for the trace driver (spec §4.6): the
list of `camera.samples()` successive `ray_color` outputs at depth 0,
with `camera.project` called before each and the random source
threaded through; `raytrace` must return their arithmetic mean. -/
def sampleColors (ops : FOps) (scene : Scene) (pos : Pnt2)
    (significance : ℚ) : ℕ → RngT → List Color
  | 0, _ => []
  | n + 1, rng =>
      let pr := Camera.project ops scene.camera pos rng
      let rcr := ray_color ops scene pr.1 significance 0 pr.2
      rcr.1 :: sampleColors ops scene pos significance n rcr.2

/-! ## Shared concrete instances for witnesses and counterexamples -/

/-- A concrete `FOps` whose square root is exact on the handful of
perfect squares the witnesses use. -/
def testOps : FOps :=
  ⟨fun q =>
      if q = 0 then 0 else if q = 1 then 1 else if q = 4 then 2
      else if q = 9 then 3 else if q = 16/25 then 4/5 else 0,
   fun _ _ => 0, fun _ => 0, fun _ => 0, 0⟩

/-- A trivial `FOps` for instances whose result does not depend on the
abstract primitives. -/
def opsZero : FOps := ⟨fun _ => 0, fun _ _ => 0, fun _ => 0, fun _ => 0, 0⟩

/-- A concrete random source (constant stream). -/
def rng0 : RngT := ⟨fun _ => 0, 0⟩

/-- A concrete ray along the x axis. -/
def rayX : Ray := ⟨⟨0, 0, 0⟩, ⟨1, 0, 0⟩⟩

/-- White. -/
def whiteC : Color := ⟨1, 1, 1⟩

/-- A simple-perspective camera at the origin with the identity
matrix. -/
def camSimple : Camera := Camera.simple ⟨⟨0, 0, 0⟩, Mat3.id⟩

/-- A scene with no objects and no lights over a solid white
background. -/
def sceneEmpty : Scene :=
  ⟨[], [], camSimple, Background.solid ⟨whiteC⟩, ⟨1, 1, 1⟩⟩

/-- A concrete intersection at `t = 1` with normal `(0,0,1)`. -/
def resZ : IntersectionResult := ⟨1, ⟨0, 0, 1⟩⟩

/-- The constant-black recursive-callee oracle. -/
def rcBlack : RayColorFn := fun _ _ _ rng => (Color.BLACK, rng)

/-- An oracle that is black at significance ≤ 1 and white above. -/
def rcTest : RayColorFn :=
  fun _ s _ rng => (if s ≤ 1 then Color.BLACK else whiteC, rng)

/-- An object reporting an ordinary hit at `t = 1`. -/
def objGood : ObjectF := ⟨fun _ => some ⟨F64.val 1, ⟨0, 0, 1⟩⟩⟩

/-- An object reporting a hit whose `t` is NaN (as a real
`Plane::intersect` does for a ray lying inside the plane, where
`0.0/0.0` is NaN and `NaN <= 0.0` is false). -/
def objNan : ObjectF := ⟨fun _ => some ⟨F64.nan, ⟨0, 0, 1⟩⟩⟩

/-! ## Component-unfolding helper lemmas -/

/-- Componentwise vector addition (definitional). -/
@[simp] theorem Vec3.add_def (a b : Vec3) :
    a + b = ⟨a.x + b.x, a.y + b.y, a.z + b.z⟩ := rfl

/-- Componentwise vector subtraction (definitional). -/
@[simp] theorem Vec3.sub_def (a b : Vec3) :
    a - b = ⟨a.x - b.x, a.y - b.y, a.z - b.z⟩ := rfl

/-- Componentwise vector negation (definitional). -/
@[simp] theorem Vec3.neg_def (a : Vec3) : -a = ⟨-a.x, -a.y, -a.z⟩ := rfl

/-- Componentwise scalar multiplication (definitional). -/
@[simp] theorem Vec3.scale_def (a : Vec3) (t : ℚ) :
    a * t = ⟨a.x * t, a.y * t, a.z * t⟩ := rfl

/-- Componentwise matrix-vector product (definitional). -/
@[simp] theorem Mat3.mulVec_def (m : Mat3) (v : Vec3) :
    m * v = ⟨m.m11 * v.x + m.m12 * v.y + m.m13 * v.z,
      m.m21 * v.x + m.m22 * v.y + m.m23 * v.z,
      m.m31 * v.x + m.m32 * v.y + m.m33 * v.z⟩ := rfl

/-- Componentwise color addition (definitional). -/
@[simp] theorem Color.add_color_def (a b : Color) :
    a + b = ⟨a.r + b.r, a.g + b.g, a.b + b.b⟩ := rfl

/-- Componentwise color multiplication (definitional). -/
@[simp] theorem Color.mul_def (a b : Color) :
    a * b = ⟨a.r * b.r, a.g * b.g, a.b * b.b⟩ := rfl

/-- Componentwise color-scalar multiplication (definitional). -/
@[simp] theorem Color.scale_color_def (a : Color) (t : ℚ) :
    a * t = ⟨a.r * t, a.g * t, a.b * t⟩ := rfl

/-- Componentwise color-scalar division (definitional). -/
@[simp] theorem Color.div_def (a : Color) (t : ℚ) :
    a / t = ⟨a.r / t, a.g / t, a.b / t⟩ := rfl

/-! ## C10: skybox tie fall-through -/

/-- C10: for every ray whose direction has no strictly
largest-magnitude component (each axis magnitude is at most one of the
other two), `SkyboxBackground::color` fails all three face-selection
tests and returns black without sampling any face texture. -/
theorem C10_skybox_tie_returns_black (bg : SkyboxBackground) (ray : Ray)
    (rng : RngT)
    (hx : |ray.direction.x| ≤ |ray.direction.y| ∨
          |ray.direction.x| ≤ |ray.direction.z|)
    (hy : |ray.direction.y| ≤ |ray.direction.x| ∨
          |ray.direction.y| ≤ |ray.direction.z|)
    (hz : |ray.direction.z| ≤ |ray.direction.x| ∨
          |ray.direction.z| ≤ |ray.direction.y|) :
    bg.color ray rng = Color.BLACK := by
  unfold SkyboxBackground.color
  rw [if_neg, if_neg, if_neg]
  · rintro ⟨h1, h2⟩
    rcases hz with h | h <;> linarith
  · rintro ⟨h1, h2⟩
    rcases hy with h | h <;> linarith
  · rintro ⟨h1, h2⟩
    rcases hx with h | h <;> linarith

/-- Witness for C10 at the tied direction `(1, 1, 0)`. -/
theorem C10_skybox_tie_returns_black_witness :
    ((|(1:ℚ)| ≤ |(1:ℚ)| ∨ |(1:ℚ)| ≤ |(0:ℚ)|) ∧
     (|(1:ℚ)| ≤ |(1:ℚ)| ∨ |(1:ℚ)| ≤ |(0:ℚ)|) ∧
     (|(0:ℚ)| ≤ |(1:ℚ)| ∨ |(0:ℚ)| ≤ |(1:ℚ)|)) ∧
    SkyboxBackground.color ⟨⟨fun _ _ => whiteC⟩, ⟨fun _ _ => whiteC⟩,
        ⟨fun _ _ => whiteC⟩, ⟨fun _ _ => whiteC⟩, ⟨fun _ _ => whiteC⟩,
        ⟨fun _ _ => whiteC⟩⟩
      ⟨⟨0, 0, 0⟩, ⟨1, 1, 0⟩⟩ rng0 = Color.BLACK := by
  refine ⟨⟨?_, ?_, ?_⟩, ?_⟩
  · left; norm_num
  · left; norm_num
  · left; norm_num
  · exact C10_skybox_tie_returns_black _ _ _ (by left; norm_num)
      (by left; norm_num) (by left; norm_num)

/-! ## C1: NaN handling in the nearest-hit selection -/

/-- C1, evaluated at the failing input: with one object reporting a
non-NaN hit (`t = 1`) and another reporting a NaN `t`,
`Scene::intersect` returns the NaN candidate — `FloatNotNan::new`
maps NaN to `None`, and `None` orders *below* every `Some` under
`Option`'s ordering, so the NaN key wins every `min_by_key`
comparison instead of losing.  The claim (and spec §4.2) requires the
returned hit to be the non-NaN one. -/
theorem C1_nan_wins_selection :
    objGood.intersect rayX = some ⟨F64.val 1, ⟨0, 0, 1⟩⟩ ∧
    (sceneIntersectF [objGood, objNan] rayX).map
        (fun r => r.result.t) = some F64.nan := by
  exact ⟨rfl, rfl⟩

/-! ## C3: nearest-hit selection on non-NaN hits -/

/-- Helper: `min_by_key` returns `none` exactly on the empty list. -/
theorem min_by_key_eq_none {α : Type} (key : α → Option ℚ) (l : List α) :
    min_by_key key l = none ↔ l = [] := by
  cases l <;> simp [min_by_key]

/-- C3: on two objects that both report hits with non-NaN `t` values
`t1 < t2`, `Scene::intersect` returns the `t1` hit for either list
order; and for any object list it returns `none` exactly when no
object reports a hit. -/
theorem C3_nearest_hit (o1 o2 : ObjectF) (ray : Ray)
    (r1 r2 : IntersectionResultF) (t1 t2 : ℚ)
    (h1 : o1.intersect ray = some r1) (ht1 : r1.t = F64.val t1)
    (h2 : o2.intersect ray = some r2) (ht2 : r2.t = F64.val t2)
    (hlt : t1 < t2) :
    (sceneIntersectF [o1, o2] ray = some ⟨o1, r1⟩ ∧
     sceneIntersectF [o2, o1] ray = some ⟨o1, r1⟩) ∧
    ∀ (objs : List ObjectF) (ray2 : Ray),
      sceneIntersectF objs ray2 = none ↔
        ∀ o ∈ objs, o.intersect ray2 = none := by
  constructor
  · constructor
    · simp [sceneIntersectF, min_by_key, h1, h2, optKeyLt, ht1, ht2,
        FloatNotNan.new, not_lt.mpr (le_of_lt hlt)]
    · simp [sceneIntersectF, min_by_key, h1, h2, optKeyLt, ht1, ht2,
        FloatNotNan.new, hlt]
  · intro objs ray2
    rw [sceneIntersectF, min_by_key_eq_none, List.filterMap_eq_nil_iff]
    constructor
    · intro h o ho
      have := h o ho
      simpa using this
    · intro h o ho
      simp [h o ho]

/-- Witness for C3 on two concrete objects with hits at `t = 1` and
`t = 2`: both orders return the `t = 1` hit, and the empty scene
returns `none`. -/
theorem C3_nearest_hit_witness :
    (sceneIntersectF [objGood, ⟨fun _ => some ⟨F64.val 2, ⟨0, 1, 0⟩⟩⟩] rayX =
        some ⟨objGood, ⟨F64.val 1, ⟨0, 0, 1⟩⟩⟩ ∧
     sceneIntersectF [⟨fun _ => some ⟨F64.val 2, ⟨0, 1, 0⟩⟩⟩, objGood] rayX =
        some ⟨objGood, ⟨F64.val 1, ⟨0, 0, 1⟩⟩⟩) ∧
    ∀ (objs : List ObjectF) (ray2 : Ray),
      sceneIntersectF objs ray2 = none ↔
        ∀ o ∈ objs, o.intersect ray2 = none :=
  C3_nearest_hit objGood ⟨fun _ => some ⟨F64.val 2, ⟨0, 1, 0⟩⟩⟩ rayX
    ⟨F64.val 1, ⟨0, 0, 1⟩⟩ ⟨F64.val 2, ⟨0, 1, 0⟩⟩ 1 2
    rfl rfl rfl rfl (by norm_num)

/-! ## C2: the `MAX_DEPTH` guard -/

/-- C2, the part that holds of the source: once `depth > MAX_DEPTH`,
every material's `color` immediately returns its ambient-only
contribution (black for the transparent material) with the random
source untouched, for every recursive-callee oracle — so no recursive
`ray_color` call is made.  (The claim's other part — that every
recursive call passes `depth + 1` — fails: the reflection call of
`TransparentMaterial::color`, raytrace.rs line 212, omits the depth
argument entirely; see the modelling note on
`TransparentMaterial.color`.) -/
theorem C2_depth_guard_ambient_only (ops : FOps) (rc : RayColorFn)
    (scene : Scene) (result : IntersectionResult) (ray : Ray)
    (significance : ℚ) (depth : ℕ) (rng : RngT)
    (mp : PhongMaterial) (mf : FresnelMaterial) (mt : TransparentMaterial)
    (mi : IndirectPhongMaterial) (h : depth > MAX_DEPTH) :
    mp.color ops rc scene result ray significance depth rng =
      (mp.ambient, rng) ∧
    mf.color ops rc scene result ray significance depth rng =
      (mf.ambient, rng) ∧
    mt.color ops rc scene result ray significance depth rng =
      (Color.BLACK, rng) ∧
    mi.color ops rc scene result ray significance depth rng =
      (mi.ambient, rng) := by
  refine ⟨?_, ?_, ?_, ?_⟩
  · rw [PhongMaterial.color, if_pos h]
  · rw [FresnelMaterial.color, if_pos h]
  · rw [TransparentMaterial.color, if_pos h]
  · rw [IndirectPhongMaterial.color, if_pos h]

/-- Witness for C2 at depth 1001 on concrete materials. -/
theorem C2_depth_guard_ambient_only_witness :
    1001 > MAX_DEPTH ∧
    (PhongMaterial.color opsZero ⟨⟨0, 0, 0⟩, whiteC, 1, ⟨0, 0, 0⟩⟩ rcBlack
       sceneEmpty resZ rayX 1 1001 rng0 = ((⟨0, 0, 0⟩ : Color), rng0) ∧
     FresnelMaterial.color opsZero ⟨⟨0, 0, 0⟩, whiteC, 1, ⟨0, 0, 0⟩, 1⟩ rcBlack
       sceneEmpty resZ rayX 1 1001 rng0 = ((⟨0, 0, 0⟩ : Color), rng0) ∧
     TransparentMaterial.color opsZero ⟨whiteC, 1, 1⟩ rcBlack
       sceneEmpty resZ rayX 1 1001 rng0 = (Color.BLACK, rng0) ∧
     IndirectPhongMaterial.color opsZero ⟨⟨0, 0, 0⟩, whiteC, 1, ⟨0, 0, 0⟩, 1⟩
       rcBlack sceneEmpty resZ rayX 1 1001 rng0 =
         ((⟨0, 0, 0⟩ : Color), rng0)) :=
  ⟨by decide,
   C2_depth_guard_ambient_only opsZero rcBlack sceneEmpty resZ rayX 1 1001
     rng0 ⟨⟨0, 0, 0⟩, whiteC, 1, ⟨0, 0, 0⟩⟩ ⟨⟨0, 0, 0⟩, whiteC, 1, ⟨0, 0, 0⟩, 1⟩
     ⟨whiteC, 1, 1⟩ ⟨⟨0, 0, 0⟩, whiteC, 1, ⟨0, 0, 0⟩, 1⟩ (by decide)⟩

/-! ## C4: sphere intersection -/

/-- The branch structure of `Sphere::intersect`, written out with the
named coefficients (definitional). -/
theorem Sphere.intersect_eq (ops : FOps) (s : Sphere) (ray : Ray) :
    s.intersect ops ray =
      if 0 < s.disc ray then
        if 0 < (-(s.qb ray) - ops.sqrt (s.disc ray)) /
            (2 * ray.direction.sqnorm) then
          some ⟨(-(s.qb ray) - ops.sqrt (s.disc ray)) /
              (2 * ray.direction.sqnorm),
            Vec3.normalize ops
              (ray.cast ((-(s.qb ray) - ops.sqrt (s.disc ray)) /
                (2 * ray.direction.sqnorm)) - s.center)⟩
        else if 0 < (-(s.qb ray) + ops.sqrt (s.disc ray)) /
            (2 * ray.direction.sqnorm) then
          some ⟨(-(s.qb ray) + ops.sqrt (s.disc ray)) /
              (2 * ray.direction.sqnorm),
            Vec3.normalize ops
              (ray.cast ((-(s.qb ray) + ops.sqrt (s.disc ray)) /
                (2 * ray.direction.sqnorm)) - s.center)⟩
        else none
      else none :=
  rfl

/-- The discriminant in terms of the named coefficients
(definitional). -/
theorem Sphere.disc_eq (s : Sphere) (ray : Ray) :
    s.disc ray =
      s.qb ray * s.qb ray - 4 * ray.direction.sqnorm * s.qc ray :=
  rfl

/-- A positive discriminant forces a nonzero (hence positive-sqnorm)
direction: with `a = |d|² = 0` every component of `d` vanishes, so
`b = 0` and the discriminant is 0. -/
theorem Sphere.disc_pos_dir (s : Sphere) (ray : Ray)
    (h : 0 < s.disc ray) : 0 < ray.direction.sqnorm := by
  rcases lt_or_eq_of_le (by
      simp only [Vec3.sqnorm, Vec3.dot]
      nlinarith [mul_self_nonneg ray.direction.x,
        mul_self_nonneg ray.direction.y, mul_self_nonneg ray.direction.z] :
      (0:ℚ) ≤ ray.direction.sqnorm) with hlt | heq
  · exact hlt
  · exfalso
    have hx : ray.direction.x = 0 := by
      have := heq.symm
      simp only [Vec3.sqnorm, Vec3.dot] at this
      nlinarith [mul_self_nonneg ray.direction.x,
        mul_self_nonneg ray.direction.y, mul_self_nonneg ray.direction.z]
    have hy : ray.direction.y = 0 := by
      have := heq.symm
      simp only [Vec3.sqnorm, Vec3.dot] at this
      nlinarith [mul_self_nonneg ray.direction.x,
        mul_self_nonneg ray.direction.y, mul_self_nonneg ray.direction.z]
    have hz : ray.direction.z = 0 := by
      have := heq.symm
      simp only [Vec3.sqnorm, Vec3.dot] at this
      nlinarith [mul_self_nonneg ray.direction.x,
        mul_self_nonneg ray.direction.y, mul_self_nonneg ray.direction.z]
    have hb : s.qb ray = 0 := by
      simp [Sphere.qb, Vec3.dot, hx, hy, hz]
    rw [Sphere.disc_eq, hb, ← heq] at h
    nlinarith

/-- C4: `Sphere::intersect` reports no hit when the discriminant is at
most 0 (tangent rays included); with a positive discriminant it
returns the smaller root when strictly positive, else the larger root
when strictly positive, else nothing, with normal
`normalize(cast t − center)`; and a ray starting strictly inside the
sphere (`c < 0`) gets exactly the positive larger-root exit hit (the
smaller root is negative). -/
theorem C4_sphere_intersect (ops : FOps) (s : Sphere) (ray : Ray) :
    (s.disc ray ≤ 0 → s.intersect ops ray = none) ∧
    (0 < s.disc ray →
      (0 < (-(s.qb ray) - ops.sqrt (s.disc ray)) /
          (2 * ray.direction.sqnorm) →
        s.intersect ops ray =
          some ⟨(-(s.qb ray) - ops.sqrt (s.disc ray)) /
              (2 * ray.direction.sqnorm),
            Vec3.normalize ops
              (ray.cast ((-(s.qb ray) - ops.sqrt (s.disc ray)) /
                (2 * ray.direction.sqnorm)) - s.center)⟩) ∧
      ((-(s.qb ray) - ops.sqrt (s.disc ray)) /
          (2 * ray.direction.sqnorm) ≤ 0 →
        0 < (-(s.qb ray) + ops.sqrt (s.disc ray)) /
          (2 * ray.direction.sqnorm) →
        s.intersect ops ray =
          some ⟨(-(s.qb ray) + ops.sqrt (s.disc ray)) /
              (2 * ray.direction.sqnorm),
            Vec3.normalize ops
              (ray.cast ((-(s.qb ray) + ops.sqrt (s.disc ray)) /
                (2 * ray.direction.sqnorm)) - s.center)⟩) ∧
      ((-(s.qb ray) - ops.sqrt (s.disc ray)) /
          (2 * ray.direction.sqnorm) ≤ 0 →
        (-(s.qb ray) + ops.sqrt (s.disc ray)) /
          (2 * ray.direction.sqnorm) ≤ 0 →
        s.intersect ops ray = none) ∧
      (SqrtOk ops (s.disc ray) →
        (-(s.qb ray) - ops.sqrt (s.disc ray)) /
          (2 * ray.direction.sqnorm) ≤
        (-(s.qb ray) + ops.sqrt (s.disc ray)) /
          (2 * ray.direction.sqnorm))) ∧
    (s.qc ray < 0 → 0 < ray.direction.sqnorm → SqrtOk ops (s.disc ray) →
      0 < s.disc ray ∧
      (-(s.qb ray) - ops.sqrt (s.disc ray)) /
        (2 * ray.direction.sqnorm) < 0 ∧
      0 < (-(s.qb ray) + ops.sqrt (s.disc ray)) /
        (2 * ray.direction.sqnorm) ∧
      s.intersect ops ray =
        some ⟨(-(s.qb ray) + ops.sqrt (s.disc ray)) /
            (2 * ray.direction.sqnorm),
          Vec3.normalize ops
            (ray.cast ((-(s.qb ray) + ops.sqrt (s.disc ray)) /
              (2 * ray.direction.sqnorm)) - s.center)⟩) := by
  refine ⟨?_, ?_, ?_⟩
  · intro h
    rw [Sphere.intersect_eq, if_neg (not_lt.mpr h)]
  · intro hd
    refine ⟨?_, ?_, ?_, ?_⟩
    · intro h1
      rw [Sphere.intersect_eq, if_pos hd, if_pos h1]
    · intro h1 h2
      rw [Sphere.intersect_eq, if_pos hd, if_neg (not_lt.mpr h1), if_pos h2]
    · intro h1 h2
      rw [Sphere.intersect_eq, if_pos hd, if_neg (not_lt.mpr h1),
        if_neg (not_lt.mpr h2)]
    · intro hs
      have ha := Sphere.disc_pos_dir s ray hd
      have h2a : 0 < 2 * ray.direction.sqnorm := by linarith
      rw [div_le_div_iff_of_pos_right h2a]
      linarith [hs.1]
  · intro hc ha hs
    have hd : 0 < s.disc ray := by
      rw [Sphere.disc_eq]
      nlinarith
    have h2a : 0 < 2 * ray.direction.sqnorm := by linarith
    have hsq : ops.sqrt (s.disc ray) * ops.sqrt (s.disc ray) = s.disc ray :=
      hs.2
    have hpos : 0 ≤ ops.sqrt (s.disc ray) := hs.1
    have habs : s.qb ray < ops.sqrt (s.disc ray) ∧
        -(ops.sqrt (s.disc ray)) < s.qb ray := by
      constructor <;> nlinarith [Sphere.disc_eq s ray]
    have ht1 : (-(s.qb ray) - ops.sqrt (s.disc ray)) /
        (2 * ray.direction.sqnorm) < 0 := by
      apply div_neg_of_neg_of_pos _ h2a
      linarith [habs.2]
    have ht2 : 0 < (-(s.qb ray) + ops.sqrt (s.disc ray)) /
        (2 * ray.direction.sqnorm) := by
      apply div_pos _ h2a
      linarith [habs.1]
    exact ⟨hd, ht1, ht2, by
      rw [Sphere.intersect_eq, if_pos hd, if_neg (not_lt.mpr (le_of_lt ht1)),
        if_pos ht2]⟩

/-- Witness for C4: the unit sphere at the origin and a ray starting
at its center along x — the inside case yields the single exit hit at
`t = 1` with outward normal `(1,0,0)`. -/
theorem C4_sphere_intersect_witness :
    ((⟨⟨0, 0, 0⟩, 1⟩ : Sphere).qc rayX < 0 ∧
     0 < rayX.direction.sqnorm ∧
     SqrtOk testOps ((⟨⟨0, 0, 0⟩, 1⟩ : Sphere).disc rayX)) ∧
    Sphere.intersect testOps ⟨⟨0, 0, 0⟩, 1⟩ rayX =
      some ⟨1, ⟨1, 0, 0⟩⟩ := by
  have hc : (⟨⟨0, 0, 0⟩, 1⟩ : Sphere).qc rayX < 0 := by
    norm_num [Sphere.qc, rayX, Vec3.sqnorm, Vec3.dot]
  have ha : 0 < rayX.direction.sqnorm := by
    norm_num [rayX, Vec3.sqnorm, Vec3.dot]
  have hs : SqrtOk testOps ((⟨⟨0, 0, 0⟩, 1⟩ : Sphere).disc rayX) := by
    norm_num [SqrtOk, testOps, Sphere.disc, rayX, Vec3.sqnorm, Vec3.dot]
  refine ⟨⟨hc, ha, hs⟩, ?_⟩
  have h := (C4_sphere_intersect testOps ⟨⟨0, 0, 0⟩, 1⟩ rayX).2.2 hc ha hs
  rw [h.2.2.2]
  norm_num [Sphere.qb, Sphere.disc, testOps, rayX, Vec3.sqnorm, Vec3.dot,
    Ray.cast, Vec3.normalize, Vec3.norm]

/-! ## C8: light directions -/

/-- A vector normalized through an exact square root of its squared
norm has squared norm 1. -/
theorem Vec3.sqnorm_normalize (ops : FOps) (v : Vec3)
    (h : SqrtOk ops v.sqnorm) (hnz : v.sqnorm ≠ 0) :
    (v.normalize ops).sqnorm = 1 := by
  have hn : ops.sqrt v.sqnorm ≠ 0 := by
    intro h0
    apply hnz
    rw [← h.2, h0, mul_zero]
  obtain ⟨-, h2⟩ := h
  simp only [Vec3.normalize, Vec3.norm, Vec3.sqnorm, Vec3.dot] at h2 hn ⊢
  field_simp
  linarith [h2]

/-- C8 counterexample: a directional light whose stored direction is
`(0,0,2)` yields the un-normalized vector `(0,0,-2)` of squared norm
4 — not the unit vector opposite the stored direction. -/
theorem C8_directional_not_unit :
    (DirectionalLight.light_dir_and_sq_range_for ⟨⟨0, 0, 2⟩⟩ ⟨0, 0, 0⟩
        rng0).1 = ⟨0, 0, -2⟩ ∧
    Vec3.sqnorm (DirectionalLight.light_dir_and_sq_range_for ⟨⟨0, 0, 2⟩⟩
        ⟨0, 0, 0⟩ rng0).1 ≠ 1 := by
  constructor
  · norm_num [DirectionalLight.light_dir_and_sq_range_for]
  · norm_num [DirectionalLight.light_dir_and_sq_range_for, Vec3.sqnorm,
      Vec3.dot]

/-- C8 amended: a `PointLight` returns the normalized vector toward
the light (unit length whenever the shaded point differs from the
light's location and the square root is exact there) together with
`Some` of the squared distance; a `DirectionalLight` returns the plain
negation of its stored direction — unit length only if the stored
direction happens to be unit — together with `None`. -/
theorem C8_light_dir_amended (ops : FOps) (pl : PointLight)
    (dl : DirectionalLight) (pt : Pnt3) (rng : RngT)
    (hs : SqrtOk ops (Vec3.sqnorm ⟨pl.location.x - pt.x,
        pl.location.y - pt.y, pl.location.z - pt.z⟩))
    (hnz : Vec3.sqnorm (⟨pl.location.x - pt.x, pl.location.y - pt.y,
        pl.location.z - pt.z⟩ : Vec3) ≠ 0) :
    Vec3.sqnorm (pl.light_dir_and_sq_range_for ops pt rng).1 = 1 ∧
    (pl.light_dir_and_sq_range_for ops pt rng).2 =
      some (pl.location.sqdist pt) ∧
    dl.light_dir_and_sq_range_for pt rng = (-dl.direction, none) := by
  refine ⟨?_, rfl, rfl⟩
  exact Vec3.sqnorm_normalize ops _ hs hnz

/-- Witness for C8 at a point light at `(0,0,3)` shading the origin. -/
theorem C8_light_dir_amended_witness :
    (SqrtOk testOps (Vec3.sqnorm ⟨(0:ℚ) - 0, (0:ℚ) - 0, (3:ℚ) - 0⟩) ∧
     Vec3.sqnorm (⟨(0:ℚ) - 0, (0:ℚ) - 0, (3:ℚ) - 0⟩ : Vec3) ≠ 0) ∧
    Vec3.sqnorm ((PointLight.light_dir_and_sq_range_for testOps ⟨⟨0, 0, 3⟩⟩
        ⟨0, 0, 0⟩ rng0).1) = 1 ∧
    (PointLight.light_dir_and_sq_range_for testOps ⟨⟨0, 0, 3⟩⟩
        ⟨0, 0, 0⟩ rng0).2 =
      some (Pnt3.sqdist ⟨0, 0, 3⟩ ⟨0, 0, 0⟩) ∧
    DirectionalLight.light_dir_and_sq_range_for ⟨⟨0, 0, 1⟩⟩ ⟨0, 0, 0⟩ rng0 =
      (-(⟨0, 0, 1⟩ : Vec3), none) := by
  have hs : SqrtOk testOps
      (Vec3.sqnorm ⟨(0:ℚ) - 0, (0:ℚ) - 0, (3:ℚ) - 0⟩) := by
    norm_num [SqrtOk, testOps, Vec3.sqnorm, Vec3.dot]
  have hnz : Vec3.sqnorm (⟨(0:ℚ) - 0, (0:ℚ) - 0, (3:ℚ) - 0⟩ : Vec3) ≠ 0 := by
    norm_num [Vec3.sqnorm, Vec3.dot]
  exact ⟨⟨hs, hnz⟩,
    C8_light_dir_amended testOps ⟨⟨0, 0, 3⟩⟩ ⟨⟨0, 0, 1⟩⟩ ⟨0, 0, 0⟩ rng0 hs hnz⟩

/-! ## C6: the transparent material at ior = 1 -/

/-- An exact square root of a square is the absolute value. -/
theorem sqrt_sq_abs (ops : FOps) (x : ℚ) (hs : SqrtOk ops (x * x)) :
    ops.sqrt (x * x) = |x| := by
  obtain ⟨h1, h2⟩ := hs
  have ha : |x| * |x| = x * x := abs_mul_abs_self x
  have key : (ops.sqrt (x * x) - |x|) * (ops.sqrt (x * x) + |x|) = 0 := by
    linear_combination h2 - ha
  rcases mul_eq_zero.mp key with h | h
  · linarith
  · have := abs_nonneg x
    have hx : |x| = 0 := by linarith
    linarith

set_option maxHeartbeats 1000000 in
/-- C6 counterexample: at `ior = 1`, for the unit incident direction
`(3/5, -4/5, 0)` against unit normal `(0, 1, 0)` (an entering hit),
the computed refraction vector is `(3/5, -12/5, 0)` — not a scalar
multiple of the incident direction, so the ray bends — and the
computed Fresnel term is `1/3125`, not 0. -/
theorem C6_ior_one_counterexample :
    TransparentMaterial.refractVec testOps 1 ⟨0, 1, 0⟩ ⟨3/5, -4/5, 0⟩ =
      some ⟨3/5, -12/5, 0⟩ ∧
    (∀ k : ℚ, (⟨3/5, -4/5, 0⟩ : Vec3) * k ≠ (⟨3/5, -12/5, 0⟩ : Vec3)) ∧
    TransparentMaterial.fresnelTerm testOps 1 ⟨0, 1, 0⟩ ⟨3/5, -4/5, 0⟩ =
      1/3125 ∧
    (1/3125 : ℚ) ≠ 0 := by
  have habs : |(-4/5 : ℚ)| = 4/5 := by
    rw [abs_of_neg (by norm_num : (-4/5 : ℚ) < 0)]
    norm_num
  have habs2 : |(4/5 : ℚ)| = 4/5 := abs_of_pos (by norm_num)
  have hr1 : TransparentMaterial.refractVec testOps 1 ⟨0, 1, 0⟩
      ⟨3/5, -4/5, 0⟩ = some ⟨3/5, -12/5, 0⟩ := by
    norm_num [TransparentMaterial.refractVec, Vec3.dot, testOps, habs, habs2]
  refine ⟨hr1, ?_, ?_, by norm_num⟩
  · intro k h
    rw [Vec3.scale_def, Vec3.mk.injEq] at h
    obtain ⟨h1, h2, -⟩ := h
    simp only at h1 h2
    have hk : k = 1 := by linarith
    rw [hk] at h2
    norm_num at h2
  · unfold TransparentMaterial.fresnelTerm
    rw [hr1]
    norm_num [Vec3.dot, clamp_one, habs, habs2]

/-- C6 amended: at `ior = 1`, for every entering hit (`N·d < 0`) with
an exact square root at `(N·d)²`, the computed refraction vector is
`d − N·(2·|N·d|)` — the incident direction pushed through the surface
plane, collinear with `d` only at normal incidence (the sign of the
`n·cosθ` term differs from Snell's construction) — and the Schlick
term is `clamp_one((1 − |N·d|)⁵)`, which vanishes only at normal
incidence, not at every angle. -/
theorem C6_ior_one_amended (ops : FOps) (N d : Vec3)
    (hnd : N.dot d < 0) (hs : SqrtOk ops (N.dot d * N.dot d)) :
    TransparentMaterial.refractVec ops 1 N d =
      some (d - N * (2 * |N.dot d|)) ∧
    TransparentMaterial.fresnelTerm ops 1 N d =
      clamp_one ((1 - |N.dot d|)^5) := by
  have hnd0 : ¬ (N.dot d > 0) := by linarith
  have harg : (1:ℚ) - 1 / 1 * (1 / 1) * (1 - N.dot d * N.dot d) =
      N.dot d * N.dot d := by ring
  have hsin : (1:ℚ) / 1 * (1 / 1) * (1 - N.dot d * N.dot d) < 1 := by
    nlinarith [mul_pos_of_neg_of_neg hnd hnd]
  have hr : TransparentMaterial.refractVec ops 1 N d =
      some (d - N * (2 * |N.dot d|)) := by
    simp only [TransparentMaterial.refractVec]
    rw [if_neg hnd0, if_neg hnd0, if_pos hsin, harg, sqrt_sq_abs ops _ hs]
    simp only [Option.some.injEq, Vec3.scale_def, Vec3.sub_def, Vec3.mk.injEq]
    refine ⟨by ring, by ring, by ring⟩
  refine ⟨hr, ?_⟩
  unfold TransparentMaterial.fresnelTerm
  simp only [hr, if_neg hnd0]
  norm_num
  congr 1
  ring

/-- Witness for C6 amended at the entering hit `N = (0,1,0)`,
`d = (3/5, -4/5, 0)` with the exact square root `4/5` of `16/25`. -/
theorem C6_ior_one_amended_witness :
    ((Vec3.dot ⟨0, 1, 0⟩ ⟨3/5, -4/5, 0⟩ < 0) ∧
      SqrtOk testOps (Vec3.dot ⟨0, 1, 0⟩ ⟨3/5, -4/5, 0⟩ *
        Vec3.dot ⟨0, 1, 0⟩ ⟨3/5, -4/5, 0⟩)) ∧
    TransparentMaterial.refractVec testOps 1 ⟨0, 1, 0⟩ ⟨3/5, -4/5, 0⟩ =
      some ((⟨3/5, -4/5, 0⟩ : Vec3) - (⟨0, 1, 0⟩ : Vec3) *
        (2 * |Vec3.dot ⟨0, 1, 0⟩ ⟨3/5, -4/5, 0⟩|)) ∧
    TransparentMaterial.fresnelTerm testOps 1 ⟨0, 1, 0⟩ ⟨3/5, -4/5, 0⟩ =
      clamp_one ((1 - |Vec3.dot ⟨0, 1, 0⟩ ⟨3/5, -4/5, 0⟩|)^5) := by
  have hnd : Vec3.dot ⟨0, 1, 0⟩ ⟨3/5, -4/5, 0⟩ < 0 := by
    norm_num [Vec3.dot]
  have hs : SqrtOk testOps (Vec3.dot ⟨0, 1, 0⟩ ⟨3/5, -4/5, 0⟩ *
      Vec3.dot ⟨0, 1, 0⟩ ⟨3/5, -4/5, 0⟩) := by
    norm_num [SqrtOk, Vec3.dot, testOps]
  exact ⟨⟨hnd, hs⟩, C6_ior_one_amended testOps ⟨0, 1, 0⟩ ⟨3/5, -4/5, 0⟩ hnd hs⟩

/-! ## C7: the depth-of-field camera at aperture 0 -/

/-- Normalizing `v * k` for `k > 0` (with exact square roots at both
squared norms) equals normalizing `v`. -/
theorem Vec3.normalize_scale (ops : FOps) (v : Vec3) (k : ℚ)
    (hk : 0 < k) (h1 : SqrtOk ops v.sqnorm)
    (h2 : SqrtOk ops ((v * k).sqnorm)) (hnz : v.sqnorm ≠ 0) :
    Vec3.normalize ops (v * k) = Vec3.normalize ops v := by
  have hs1pos : 0 < ops.sqrt v.sqnorm := by
    rcases lt_or_eq_of_le h1.1 with h | h
    · exact h
    · exfalso
      apply hnz
      rw [← h1.2, ← h, mul_zero]
  have hsq : (v * k).sqnorm = v.sqnorm * (k * k) := by
    simp only [Vec3.sqnorm, Vec3.dot, Vec3.scale_def]
    ring
  have key : (ops.sqrt ((v * k).sqnorm) - k * ops.sqrt v.sqnorm) *
      (ops.sqrt ((v * k).sqnorm) + k * ops.sqrt v.sqnorm) = 0 := by
    linear_combination h2.2 - k * k * h1.2 + hsq
  have hs2 : ops.sqrt ((v * k).sqnorm) = k * ops.sqrt v.sqnorm := by
    rcases mul_eq_zero.mp key with h | h
    · linarith
    · nlinarith [h2.1, mul_pos hk hs1pos]
  have hkne : k ≠ 0 := ne_of_gt hk
  have hs1ne : ops.sqrt v.sqnorm ≠ 0 := ne_of_gt hs1pos
  simp only [Vec3.normalize, Vec3.norm]
  rw [hs2]
  simp only [Vec3.scale_def, Vec3.mk.injEq]
  refine ⟨?_, ?_, ?_⟩ <;> field_simp <;> ring

/-- C7 counterexample: with aperture 0, focus 2 and the identity
matrix, the depth-of-field ray starts at `(0,0,1)` — the point on the
image plane — while the wrapped simple-perspective ray starts at the
camera position `(0,0,0)`; the rays are not equal. -/
theorem C7_dof_aperture_zero_counterexample :
    ((DepthOfFieldCamera.new testOps ⟨⟨0, 0, 0⟩, Mat3.id⟩ 2 0 1).project
        testOps ⟨0, 0⟩ rng0).1.origin = ⟨0, 0, 1⟩ ∧
    (SimplePerspectiveCamera.project testOps ⟨⟨0, 0, 0⟩, Mat3.id⟩ ⟨0, 0⟩
        rng0).origin = ⟨0, 0, 0⟩ ∧
    ((DepthOfFieldCamera.new testOps ⟨⟨0, 0, 0⟩, Mat3.id⟩ 2 0 1).project
        testOps ⟨0, 0⟩ rng0).1 ≠
      SimplePerspectiveCamera.project testOps ⟨⟨0, 0, 0⟩, Mat3.id⟩ ⟨0, 0⟩
        rng0 := by
  refine ⟨?_, ?_, ?_⟩
  · norm_num [DepthOfFieldCamera.project, DepthOfFieldCamera.new, Mat3.id,
      RngT.next, rng0, testOps, Vec3.sqnorm, Vec3.dot, Vec3.norm]
  · norm_num [SimplePerspectiveCamera.project, Mat3.id, Vec3.normalize,
      Vec3.norm, Vec3.sqnorm, Vec3.dot, testOps]
  · intro h
    have ho := congrArg Ray.origin h
    rw [show ((DepthOfFieldCamera.new testOps ⟨⟨0, 0, 0⟩, Mat3.id⟩ 2 0
        1).project testOps ⟨0, 0⟩ rng0).1.origin = ⟨0, 0, 1⟩ from by
      norm_num [DepthOfFieldCamera.project, DepthOfFieldCamera.new, Mat3.id,
        RngT.next, rng0, testOps, Vec3.sqnorm, Vec3.dot, Vec3.norm]] at ho
    rw [show (SimplePerspectiveCamera.project testOps ⟨⟨0, 0, 0⟩, Mat3.id⟩
        ⟨0, 0⟩ rng0).origin = ⟨0, 0, 0⟩ from by
      norm_num [SimplePerspectiveCamera.project, Mat3.id, Vec3.normalize,
        Vec3.norm, Vec3.sqnorm, Vec3.dot, testOps]] at ho
    rw [Vec3.mk.injEq] at ho
    norm_num at ho

/-- C7 amended: with aperture 0 the lens jitter vanishes, so for every
image coordinate and random state the depth-of-field ray has the same
direction as the wrapped simple-perspective ray (whenever
`focus / im_dist > 1` and the relevant square roots are exact), but
its origin is the point on the image plane — the camera position
translated by the unnormalized direction — not the camera position
itself. -/
theorem C7_dof_aperture_zero_amended (ops : FOps)
    (spc : SimplePerspectiveCamera) (focus : ℚ) (samples : ℕ)
    (pos : Pnt2) (rng : RngT)
    (hfi : 1 < focus /
      (DepthOfFieldCamera.new ops spc focus 0 samples).im_dist)
    (h1 : SqrtOk ops (Vec3.sqnorm (spc.matrix *
      (⟨pos.x, pos.y, 1⟩ : Vec3))))
    (hnz : Vec3.sqnorm (spc.matrix * (⟨pos.x, pos.y, 1⟩ : Vec3)) ≠ 0)
    (h2 : SqrtOk ops (Vec3.sqnorm ((spc.matrix *
      (⟨pos.x, pos.y, 1⟩ : Vec3)) * (focus /
      (DepthOfFieldCamera.new ops spc focus 0 samples).im_dist - 1)))) :
    ((DepthOfFieldCamera.new ops spc focus 0 samples).project ops pos
        rng).1 =
      ⟨spc.position + spc.matrix * (⟨pos.x, pos.y, 1⟩ : Vec3),
       (spc.project ops pos rng).direction⟩ := by
  simp only [DepthOfFieldCamera.new] at hfi h2
  simp only [DepthOfFieldCamera.project, DepthOfFieldCamera.new,
    SimplePerspectiveCamera.project]
  rw [Ray.mk.injEq]
  constructor
  · simp only [Vec3.add_def, Mat3.mulVec_def, Vec3.mk.injEq]
    refine ⟨by ring, by ring, by ring⟩
  · have hfo : (spc.position + (spc.matrix *
        (⟨pos.x, pos.y, 1⟩ : Vec3)) * (focus / Vec3.norm ops
          (spc.matrix * (⟨0, 0, 1⟩ : Vec3)))) -
        (spc.position + spc.matrix * (⟨pos.x, pos.y, 1⟩ : Vec3) +
          spc.matrix * (⟨ops.cos (rng.next).1 * (ops.sqrt
            ((rng.next).2.next).1 * 0), ops.sin (rng.next).1 *
            (ops.sqrt ((rng.next).2.next).1 * 0), 0⟩ : Vec3)) =
        (spc.matrix * (⟨pos.x, pos.y, 1⟩ : Vec3)) * (focus / Vec3.norm
          ops (spc.matrix * (⟨0, 0, 1⟩ : Vec3)) - 1) := by
      simp only [Vec3.add_def, Vec3.sub_def, Vec3.scale_def,
        Mat3.mulVec_def, Vec3.mk.injEq]
      refine ⟨by ring, by ring, by ring⟩
    rw [hfo]
    exact Vec3.normalize_scale ops _ _ (by linarith) h1 h2 hnz

/-- Witness for C7 amended: identity camera, focus 3, aperture 0. -/
theorem C7_dof_aperture_zero_amended_witness :
    ((1:ℚ) < 3 / (DepthOfFieldCamera.new testOps ⟨⟨0, 0, 0⟩, Mat3.id⟩ 3 0
        1).im_dist ∧
     SqrtOk testOps (Vec3.sqnorm ((⟨⟨0, 0, 0⟩, Mat3.id⟩ :
        SimplePerspectiveCamera).matrix * (⟨(0:ℚ), (0:ℚ), 1⟩ : Vec3))) ∧
     Vec3.sqnorm ((⟨⟨0, 0, 0⟩, Mat3.id⟩ :
        SimplePerspectiveCamera).matrix * (⟨(0:ℚ), (0:ℚ), 1⟩ : Vec3)) ≠ 0 ∧
     SqrtOk testOps (Vec3.sqnorm (((⟨⟨0, 0, 0⟩, Mat3.id⟩ :
        SimplePerspectiveCamera).matrix * (⟨(0:ℚ), (0:ℚ), 1⟩ : Vec3)) *
        (3 / (DepthOfFieldCamera.new testOps ⟨⟨0, 0, 0⟩, Mat3.id⟩ 3 0
          1).im_dist - 1)))) ∧
    ((DepthOfFieldCamera.new testOps ⟨⟨0, 0, 0⟩, Mat3.id⟩ 3 0 1).project
        testOps ⟨0, 0⟩ rng0).1 =
      ⟨(⟨0, 0, 0⟩ : Pnt3) + (⟨⟨0, 0, 0⟩, Mat3.id⟩ :
          SimplePerspectiveCamera).matrix * (⟨(0:ℚ), (0:ℚ), 1⟩ : Vec3),
       (SimplePerspectiveCamera.project testOps ⟨⟨0, 0, 0⟩, Mat3.id⟩ ⟨0, 0⟩
          rng0).direction⟩ := by
  have hfi : (1:ℚ) < 3 / (DepthOfFieldCamera.new testOps
      ⟨⟨0, 0, 0⟩, Mat3.id⟩ 3 0 1).im_dist := by
    norm_num [DepthOfFieldCamera.new, Mat3.id, Vec3.norm, Vec3.sqnorm,
      Vec3.dot, testOps]
  have h1 : SqrtOk testOps (Vec3.sqnorm ((⟨⟨0, 0, 0⟩, Mat3.id⟩ :
      SimplePerspectiveCamera).matrix * (⟨(0:ℚ), (0:ℚ), 1⟩ : Vec3))) := by
    norm_num [SqrtOk, Mat3.id, Vec3.sqnorm, Vec3.dot, testOps]
  have hnz : Vec3.sqnorm ((⟨⟨0, 0, 0⟩, Mat3.id⟩ :
      SimplePerspectiveCamera).matrix * (⟨(0:ℚ), (0:ℚ), 1⟩ : Vec3)) ≠ 0 := by
    norm_num [Mat3.id, Vec3.sqnorm, Vec3.dot]
  have h2 : SqrtOk testOps (Vec3.sqnorm (((⟨⟨0, 0, 0⟩, Mat3.id⟩ :
      SimplePerspectiveCamera).matrix * (⟨(0:ℚ), (0:ℚ), 1⟩ : Vec3)) *
      (3 / (DepthOfFieldCamera.new testOps ⟨⟨0, 0, 0⟩, Mat3.id⟩ 3 0
        1).im_dist - 1))) := by
    norm_num [SqrtOk, DepthOfFieldCamera.new, Mat3.id, Vec3.norm,
      Vec3.sqnorm, Vec3.dot, testOps]
  exact ⟨⟨hfi, h1, hnz, h2⟩,
    C7_dof_aperture_zero_amended testOps ⟨⟨0, 0, 0⟩, Mat3.id⟩ 3 1 ⟨0, 0⟩
      rng0 hfi h1 hnz h2⟩

/-! ## C9: the trace driver -/

/-- C9: `raytrace` returns the arithmetic mean of `camera.samples()`
successive `ray_color` outputs at depth 0 (random source threaded), and
on a scene with no objects over a solid background it returns exactly
the background color, for every pixel position, significance, random
state and camera with at least one sample (spec §3 requires
`samples() ≥ 1`). -/
theorem C9_raytrace_mean_and_empty (ops : FOps) (scene : Scene)
    (pos : Pnt2) (significance : ℚ) (rng : RngT)
    (hn : 1 ≤ scene.camera.samples) :
    raytrace ops scene pos significance rng =
      (sampleColors ops scene pos significance scene.camera.samples
        rng).foldl (· + ·) Color.BLACK / ((scene.camera.samples : ℕ) : ℚ) ∧
    ∀ c : Color, scene.objects = [] →
      scene.background = Background.solid ⟨c⟩ →
      raytrace ops scene pos significance rng = c := by
  have key : ∀ (n : ℕ) (acc : Color) (g : RngT),
      ((List.range n).foldl (fun acc (_ : ℕ) =>
        let pr := Camera.project ops scene.camera pos acc.2
        let rcr := ray_color ops scene pr.1 significance 0 pr.2
        (acc.1 + rcr.1, rcr.2)) (acc, g)).1 =
      (sampleColors ops scene pos significance n g).foldl (· + ·) acc := by
    intro n
    induction n with
    | zero => intro acc g; simp [sampleColors]
    | succ n ih =>
        intro acc g
        rw [List.range_succ_eq_map, List.foldl_cons, List.foldl_map]
        simp only [sampleColors, List.foldl_cons]
        exact ih _ _
  have hmean : raytrace ops scene pos significance rng =
      (sampleColors ops scene pos significance scene.camera.samples
        rng).foldl (· + ·) Color.BLACK / ((scene.camera.samples : ℕ) : ℚ) := by
    simp only [raytrace]
    rw [key]
  refine ⟨hmean, ?_⟩
  intro c hobj hbg
  have hint : ∀ ray : Ray, scene.intersect ray = none := by
    intro ray
    rw [Scene.intersect, hobj]
    rfl
  have hrc : ∀ (ray : Ray) (g : RngT),
      ray_color ops scene ray significance 0 g = (c, g) := by
    intro ray g
    rw [ray_color]
    have h2 : MAX_DEPTH + 2 - 0 = MAX_DEPTH + 1 + 1 := rfl
    rw [h2, ray_colorFuel, hint, hbg]
    rfl
  have hsamp : ∀ (n : ℕ) (g : RngT),
      sampleColors ops scene pos significance n g = List.replicate n c := by
    intro n
    induction n with
    | zero => intro g; rfl
    | succ n ih =>
        intro g
        simp only [sampleColors, hrc]
        rw [ih]
        rfl
  have hsum : ∀ (n : ℕ) (acc : Color),
      (List.replicate n c).foldl (· + ·) acc = acc + c * ((n : ℕ) : ℚ) := by
    intro n
    induction n with
    | zero =>
        intro acc
        cases acc with
        | mk r g b => simp [Color.scale_color_def, Color.add_color_def]
    | succ n ih =>
        intro acc
        rw [List.replicate_succ, List.foldl_cons, ih]
        cases acc with
        | mk ar ag ab =>
          cases c with
          | mk cr cg cb =>
            simp only [Color.scale_color_def, Color.add_color_def, Color.mk.injEq,
              Nat.cast_succ]
            refine ⟨by ring, by ring, by ring⟩
  have hpos : (0 : ℚ) < ((scene.camera.samples : ℕ) : ℚ) := by
    exact_mod_cast Nat.lt_of_lt_of_le Nat.zero_lt_one hn
  have hne : ((scene.camera.samples : ℕ) : ℚ) ≠ 0 := ne_of_gt hpos
  rw [hmean, hsamp, hsum]
  cases c with
  | mk cr cg cb =>
    simp only [Color.div_def, Color.add_color_def, Color.scale_color_def, Color.BLACK,
      Color.mk.injEq]
    refine ⟨?_, ?_, ?_⟩ <;> field_simp

/-- Witness for C9: the empty scene with solid white background and
the one-sample simple camera renders exactly white. -/
theorem C9_raytrace_witness :
    1 ≤ sceneEmpty.camera.samples ∧
    raytrace opsZero sceneEmpty ⟨0, 0⟩ 1 rng0 = whiteC := by
  have hn : 1 ≤ sceneEmpty.camera.samples := by
    norm_num [sceneEmpty, camSimple, Camera.samples]
  exact ⟨hn, (C9_raytrace_mean_and_empty opsZero sceneEmpty ⟨0, 0⟩ 1 rng0
    hn).2 whiteC rfl rfl⟩

/-! ## C5: significance monotonicity along recursive calls -/

/-- `clamp_one` never exceeds 1. -/
theorem clamp_one_le_one (x : ℚ) : clamp_one x ≤ 1 := by
  unfold clamp_one
  split_ifs with h
  · exact le_refl 1
  · linarith [not_lt.mp h]

/-- The transparent material's Schlick term never exceeds 1 (it is a
`clamp_one` or the total-internal-reflection constant 1). -/
theorem fresnelTerm_le_one (ops : FOps) (ior : ℚ) (N d : Vec3) :
    TransparentMaterial.fresnelTerm ops ior N d ≤ 1 := by
  unfold TransparentMaterial.fresnelTerm
  cases hr2 : TransparentMaterial.refractVec ops ior N d with
  | none => exact le_refl 1
  | some v => exact clamp_one_le_one _
/-- For `0 ≤ s`, `f ≤ 1` and `g ∈ [0,1]`, the product `f * s * g`
cannot exceed `s`. -/
theorem sig_mul_le (s f g : ℚ) (hs : 0 ≤ s) (hf : f ≤ 1) (hg0 : 0 ≤ g)
    (hg1 : g ≤ 1) : f * s * g ≤ s := by
  have h1 : f * s ≤ s := mul_le_of_le_one_left hs hf
  rcases le_or_lt 0 (f * s) with h | h
  · have h2 : f * s * g ≤ f * s * 1 := mul_le_mul_of_nonneg_left hg1 h
    rw [mul_one] at h2
    linarith
  · have h2 : f * s * g ≤ 0 * g := mul_le_mul_of_nonneg_right (le_of_lt h) hg0
    rw [zero_mul] at h2
    linarith

/-- C5 amended: every recursive `ray_color` call made by a material
passes a significance less than or equal to the incoming one,
*provided* the incoming significance is nonnegative and the material's
specular color has significance in `[0, 1]` (the counterexample shows
the claim fails without the latter bound, since `Color::significance`
is the unbounded channel sum).  Stated extensionally: the color
computed from any two recursive-callee oracles that agree on all
significances `≤ s` is the same, for each of the four materials. -/
theorem C5_significance_monotone_amended (ops : FOps)
    (rc1 rc2 : RayColorFn) (scene : Scene) (result : IntersectionResult)
    (ray : Ray) (s : ℚ) (depth : ℕ) (rng : RngT)
    (mp : PhongMaterial) (mf : FresnelMaterial) (mt : TransparentMaterial)
    (mi : IndirectPhongMaterial)
    (hs : 0 ≤ s)
    (hagree : ∀ r s2 d g, s2 ≤ s → rc1 r s2 d g = rc2 r s2 d g)
    (hp1 : mp.specular.significance ≤ 1)
    (hf0 : 0 ≤ mf.specular.significance)
    (hf1 : mf.specular.significance ≤ 1)
    (ht0 : 0 ≤ mt.specular.significance)
    (ht1 : mt.specular.significance ≤ 1) :
    mp.color ops rc1 scene result ray s depth rng =
      mp.color ops rc2 scene result ray s depth rng ∧
    mf.color ops rc1 scene result ray s depth rng =
      mf.color ops rc2 scene result ray s depth rng ∧
    mt.color ops rc1 scene result ray s depth rng =
      mt.color ops rc2 scene result ray s depth rng ∧
    mi.color ops rc1 scene result ray s depth rng =
      mi.color ops rc2 scene result ray s depth rng := by
  refine ⟨?_, ?_, ?_, ?_⟩
  · have h1 : ∀ r d g, rc1 r (s * mp.specular.significance) d g =
        rc2 r (s * mp.specular.significance) d g :=
      fun r d g => hagree _ _ _ _ (mul_le_of_le_one_right hs hp1)
    unfold PhongMaterial.color
    simp only [h1]
  · have h1 : ∀ f r d g, f ≤ 1 →
        rc1 r (f * s * mf.specular.significance) d g =
        rc2 r (f * s * mf.specular.significance) d g :=
      fun f r d g hf => hagree _ _ _ _ (sig_mul_le s f _ hs hf hf0 hf1)
    unfold FresnelMaterial.color
    simp only [h1, clamp_one_le_one]
  · have h1 : ∀ f r d g, f ≤ 1 →
        rc1 r (f * s * mt.specular.significance) d g =
        rc2 r (f * s * mt.specular.significance) d g :=
      fun f r d g hf => hagree _ _ _ _ (sig_mul_le s f _ hs hf ht0 ht1)
    have h2 : ∀ f r d g, f ≤ 1 → rc1 r (f * s) d g = rc2 r (f * s) d g :=
      fun f r d g hf => hagree _ _ _ _ (mul_le_of_le_one_left hs hf)
    unfold TransparentMaterial.color
    simp only [h1, h2, fresnelTerm_le_one, clamp_one_le_one]
  · have h1 : ∀ r d g, rc1 r s d g = rc2 r s d g :=
      fun r d g => hagree _ _ _ _ le_rfl
    unfold IndirectPhongMaterial.color
    simp only [h1]

/-- C5 counterexample: a Phong material with specular color `(1,1,1)`
has `specular.significance() = 3`, so at incoming significance 1 the
mirror-reflection call passes significance `1 * 3 = 3 > 1`: two
oracles that agree on every significance `≤ 1` (here: the constant
black oracle, and one that is black up to 1 and white above) produce
different colors, so the recursive call's significance exceeded the
incoming one. -/
theorem C5_significance_counterexample :
    (∀ r s2 d g, s2 ≤ 1 → rcBlack r s2 d g = rcTest r s2 d g) ∧
    (PhongMaterial.color opsZero ⟨⟨0, 0, 0⟩, whiteC, 1, ⟨0, 0, 0⟩⟩ rcBlack
        sceneEmpty resZ rayX 1 0 rng0).1 ≠
      (PhongMaterial.color opsZero ⟨⟨0, 0, 0⟩, whiteC, 1, ⟨0, 0, 0⟩⟩ rcTest
        sceneEmpty resZ rayX 1 0 rng0).1 := by
  constructor
  · intro r s2 d g h
    simp [rcBlack, rcTest, if_pos h]
  · have hb : (PhongMaterial.color opsZero ⟨⟨0, 0, 0⟩, whiteC, 1, ⟨0, 0, 0⟩⟩
        rcBlack sceneEmpty resZ rayX 1 0 rng0).1 = ⟨0, 0, 0⟩ := by
      norm_num [PhongMaterial.color, rcBlack, sceneEmpty, camSimple, resZ,
        rayX, whiteC, Color.significance, MIN_SIGNIFICANCE, MAX_DEPTH,
        Vec3.dot, Color.BLACK, Ray.cast]
    have ht : (PhongMaterial.color opsZero ⟨⟨0, 0, 0⟩, whiteC, 1, ⟨0, 0, 0⟩⟩
        rcTest sceneEmpty resZ rayX 1 0 rng0).1 = ⟨1, 1, 1⟩ := by
      norm_num [PhongMaterial.color, rcTest, sceneEmpty, camSimple, resZ,
        rayX, whiteC, Color.significance, MIN_SIGNIFICANCE, MAX_DEPTH,
        Vec3.dot, Color.BLACK, Ray.cast]
    rw [hb, ht]
    intro h
    rw [Color.mk.injEq] at h
    norm_num at h

/-- Witness for C5 amended on concrete materials whose specular color
`(1/6, 1/6, 1/6)` has significance `1/2 ∈ [0,1]`: the two oracles that
agree below significance 1 give identical colors for all four
materials. -/
theorem C5_significance_monotone_amended_witness :
    ((0:ℚ) ≤ 1 ∧
     (∀ r s2 d g, s2 ≤ (1:ℚ) → rcBlack r s2 d g = rcTest r s2 d g) ∧
     Color.significance ⟨1/6, 1/6, 1/6⟩ ≤ 1 ∧
     (0:ℚ) ≤ Color.significance ⟨1/6, 1/6, 1/6⟩) ∧
    (PhongMaterial.color opsZero ⟨⟨0, 0, 0⟩, ⟨1/6, 1/6, 1/6⟩, 1, ⟨0, 0, 0⟩⟩
        rcBlack sceneEmpty resZ rayX 1 0 rng0 =
      PhongMaterial.color opsZero ⟨⟨0, 0, 0⟩, ⟨1/6, 1/6, 1/6⟩, 1, ⟨0, 0, 0⟩⟩
        rcTest sceneEmpty resZ rayX 1 0 rng0) ∧
    (FresnelMaterial.color opsZero
        ⟨⟨0, 0, 0⟩, ⟨1/6, 1/6, 1/6⟩, 1, ⟨0, 0, 0⟩, 3/2⟩ rcBlack
        sceneEmpty resZ rayX 1 0 rng0 =
      FresnelMaterial.color opsZero
        ⟨⟨0, 0, 0⟩, ⟨1/6, 1/6, 1/6⟩, 1, ⟨0, 0, 0⟩, 3/2⟩ rcTest
        sceneEmpty resZ rayX 1 0 rng0) ∧
    (TransparentMaterial.color opsZero ⟨⟨1/6, 1/6, 1/6⟩, 1, 3/2⟩ rcBlack
        sceneEmpty resZ rayX 1 0 rng0 =
      TransparentMaterial.color opsZero ⟨⟨1/6, 1/6, 1/6⟩, 1, 3/2⟩ rcTest
        sceneEmpty resZ rayX 1 0 rng0) ∧
    (IndirectPhongMaterial.color opsZero
        ⟨⟨0, 0, 0⟩, ⟨1/6, 1/6, 1/6⟩, 1, ⟨0, 0, 0⟩, 1⟩ rcBlack
        sceneEmpty resZ rayX 1 0 rng0 =
      IndirectPhongMaterial.color opsZero
        ⟨⟨0, 0, 0⟩, ⟨1/6, 1/6, 1/6⟩, 1, ⟨0, 0, 0⟩, 1⟩ rcTest
        sceneEmpty resZ rayX 1 0 rng0) := by
  have hagree : ∀ r s2 d g, s2 ≤ (1:ℚ) →
      rcBlack r s2 d g = rcTest r s2 d g := by
    intro r s2 d g h
    simp [rcBlack, rcTest, if_pos h]
  have hsig1 : Color.significance ⟨1/6, 1/6, 1/6⟩ ≤ 1 := by
    norm_num [Color.significance]
  have hsig0 : (0:ℚ) ≤ Color.significance ⟨1/6, 1/6, 1/6⟩ := by
    norm_num [Color.significance]
  have h := C5_significance_monotone_amended opsZero rcBlack rcTest
    sceneEmpty resZ rayX 1 0 rng0
    ⟨⟨0, 0, 0⟩, ⟨1/6, 1/6, 1/6⟩, 1, ⟨0, 0, 0⟩⟩
    ⟨⟨0, 0, 0⟩, ⟨1/6, 1/6, 1/6⟩, 1, ⟨0, 0, 0⟩, 3/2⟩
    ⟨⟨1/6, 1/6, 1/6⟩, 1, 3/2⟩
    ⟨⟨0, 0, 0⟩, ⟨1/6, 1/6, 1/6⟩, 1, ⟨0, 0, 0⟩, 1⟩
    (by norm_num) hagree hsig1 hsig0 hsig1 hsig0 hsig1
  exact ⟨⟨by norm_num, hagree, hsig1, hsig0⟩, h.1, h.2.1, h.2.2.1, h.2.2.2⟩
